import Mathlib

/-!
Verification development for the derived-statistics caching orchestrator and
nPMI bias engine of `data_measurements/dataset_statistics.py`.

Shallow embedding conventions:
* pandas DataFrames keyed by a word index are association lists
  `List (String × _)` or lists of row structures; a column is accessed by
  name in the source, so column order is not part of table identity.
* Python float values are embedded as `ℚ`; a NaN cell (float `0/0`, with
  `pd.set_option("use_inf_as_na", True)` at source line 104) is
  `Option.none`.
* disk artifacts are fields of an explicit cache-state value; the CSV round
  trip of a clean (already `dropna`-ed) table is modelled as value-faithful,
  and `_set_idx_cols_from_cache` index re-normalization as the identity on
  such tables.
* characters are modelled at the ASCII level: `\w` of the token pattern is a
  letter, digit or underscore, and `str.lower` maps code points 65-90 to
  97-122.
-/

/-- Source line 106: `MIN_VOCAB_COUNT = 10`. -/
def MIN_VOCAB_COUNT : Nat := 10

/-- Source lines 80-102: the fixed identity-term list `_IDENTITY_TERMS`. -/
def _IDENTITY_TERMS : List String :=
  ["man", "woman", "non-binary", "gay", "lesbian", "queer", "trans",
   "straight", "cis", "she", "her", "hers", "he", "him", "his", "they",
   "them", "their", "theirs", "himself", "herself"]

/-- Modelled from the spec: source lines 47-79 build `_CLOSED_CLASS` from
`stopwords.words("english")`, which is external NLTK data not in the
repository and is taken here as the parameter `nltkStopwords`; the in-source
extra tokens and the decimal strings `"0"`..`"20"` follow the source. -/
def _CLOSED_CLASS (nltkStopwords : List String) : List String :=
  nltkStopwords ++
  ["t", "n", "ll", "d", "wasn", "weren", "won", "aren", "wouldn",
   "shouldn", "didn", "don", "hasn", "ain", "couldn", "doesn", "hadn",
   "haven", "isn", "mightn", "mustn", "needn", "shan", "would", "could",
   "dont", "u"] ++
  (List.range 21).map toString

/-- One row of `vocab_counts_df`: word index, `count` column and `proportion`
column (`none` models a NaN float cell). -/
structure VocabRow where
  word : String
  count : Nat
  prop : Option ℚ
deriving DecidableEq

/-! ### Tokenization (source lines 556-583 and 113)

`do_tokenization` lowercases each text and applies the tokenizer built from
`CountVectorizer(token_pattern="(?u)\\b\\w+\\b")`, i.e. it extracts maximal
runs of word characters. -/

/-- ASCII uppercase test, code points 65-90. -/
def isUpperChar (c : Char) : Bool :=
  65 ≤ c.toNat && c.toNat ≤ 90

/-- A string contains an uppercase character. -/
def hasUpperChar (s : String) : Bool :=
  s.data.any isUpperChar

/-- A string is fully lowercase (no uppercase characters). -/
def isLowerString (s : String) : Bool :=
  s.data.all (fun c => !(isUpperChar c))

/-- Model of Python `str.lower` on one character (ASCII range). -/
def lowerChar (c : Char) : Char :=
  if h : 65 ≤ c.toNat ∧ c.toNat ≤ 90 then
    Char.ofNatAux (c.toNat + 32) (Or.inl (by omega))
  else c

/-- Model of Python `str.lower` (source line 569: `text.lower()`). -/
def pyLower (s : String) : String :=
  ⟨s.data.map lowerChar⟩

/-- Word character for the token pattern `\w`: letter, digit or underscore
(ASCII model). -/
def isWordChar (c : Char) : Bool :=
  (65 ≤ c.toNat && c.toNat ≤ 90) || (97 ≤ c.toNat && c.toNat ≤ 122) ||
  (48 ≤ c.toNat && c.toNat ≤ 57) || c.toNat == 95

/-- Scanner extracting maximal runs of word characters; `acc` holds the
current run reversed. -/
def tokenizeAcc : List Char → List Char → List (List Char)
  | [], acc => if acc.isEmpty then [] else [acc.reverse]
  | c :: rest, acc =>
    if isWordChar c then tokenizeAcc rest (c :: acc)
    else if acc.isEmpty then tokenizeAcc rest []
    else acc.reverse :: tokenizeAcc rest []

/-- Tokenizer built from `_CVEC` (source line 113): maximal `\w+` runs. -/
def tokenize (s : String) : List String :=
  (tokenizeAcc s.data []).map (fun cs => ⟨cs⟩)

/-- Source lines 556-583, `do_tokenization`: each document's text is
lowercased, then tokenized; result is the tokenized corpus (one token list
per document). -/
def do_tokenization (texts : List String) : List (List String) :=
  texts.map (fun t => tokenize (pyLower t))

/-! ### Vocabulary counting (source lines 893-930)

`count_vocab_frequencies` fits a `CountVectorizer` with identity tokenizer
and preprocessor over the tokenized documents, so `document_matrix[d][w]` is
the number of occurrences of word `w` in document `d`.  It then sums the
matrix rows in consecutive batches delimited by
`np.linspace(0, len(df), _NUM_VOCAB_BATCHES).astype(int)` and adds the batch
results.  The boundary list is modelled as a parameter: any nondecreasing
list starting at 0 and ending at the document count, which the `linspace`
output is. -/

/-- Spec-side definition: total occurrences of `w` across every document
(single unbatched summation). -/
def directCount (corpus : List (List String)) (w : String) : Nat :=
  (corpus.map (fun doc => doc.count w)).sum

/-- Occurrences of `w` in documents `lo ≤ d < hi` (one batch slice). -/
def sliceCount (corpus : List (List String)) (lo hi : Nat) (w : String) : Nat :=
  (((corpus.drop lo).take (hi - lo)).map (fun doc => doc.count w)).sum

/-- Occurrences of `w` in documents from `lo` on. -/
def suffixCount (corpus : List (List String)) (lo : Nat) (w : String) : Nat :=
  ((corpus.drop lo).map (fun doc => doc.count w)).sum

/-- Code-side definition: the batched accumulation of source lines 912-926,
summing each `[batches[i], batches[i+1])` slice and adding the batch
results. -/
def batchedCount (corpus : List (List String)) (bs : List Nat) (w : String) : Nat :=
  match bs with
  | b1 :: b2 :: rest => sliceCount corpus b1 b2 w + batchedCount corpus (b2 :: rest) w
  | _ => 0

/-- Feature names collected by `cvec.fit`: the distinct tokens of the corpus
(sklearn additionally sorts them; key order is irrelevant to the claims). -/
def vocabKeys (corpus : List (List String)) : List String :=
  corpus.flatten.dedup

/-- Source lines 893-930, `count_vocab_frequencies`: per-word totals obtained
by the batched accumulation over the boundary list `bs`. -/
def count_vocab_frequencies (corpus : List (List String)) (bs : List Nat) :
    List (String × Nat) :=
  (vocabKeys corpus).map (fun w => (w, batchedCount corpus bs w))

/-! ### `calc_p_word` and `filter_vocab` (source lines 933-949) -/

/-- Total of the `count` column, `sum(word_count_df[CNT])`. -/
def totalCount (wc : List (String × Nat)) : Nat :=
  (wc.map Prod.snd).sum

/-- Stable insertion by descending count, modelling
`sort_values(by=CNT, ascending=False)`. -/
def insertByCountDesc (r : VocabRow) : List VocabRow → List VocabRow
  | [] => [r]
  | x :: xs => if x.count < r.count then r :: x :: xs else x :: insertByCountDesc r xs

/-- Sort rows by descending count. -/
def sortByCountDesc : List VocabRow → List VocabRow
  | [] => []
  | x :: xs => insertByCountDesc x (sortByCountDesc xs)

/-- Source lines 933-939, `calc_p_word`: adds the proportion column
`count / float(sum(count))` and sorts by count descending.  When the total
is 0 every count is 0 and the float division `0/0.0` produces NaN (`none`);
no exception is raised on this path. -/
def calc_p_word (wc : List (String × Nat)) : List VocabRow :=
  sortByCountDesc (wc.map (fun p =>
    ⟨p.1, p.2,
     if totalCount wc = 0 then none
     else some ((p.2 : ℚ) / (totalCount wc : ℚ))⟩))

/-- Count total of the rows surviving the closed-class drop,
`float(sum(filtered_vocab_counts_df[CNT]))`. -/
def filteredDenom (closedClass : List String) (rows : List VocabRow) : Nat :=
  ((rows.filter (fun r => !(decide (r.word ∈ closedClass)))).map (fun r => r.count)).sum

/-- Source lines 942-949, `filter_vocab`: drops the closed-class words from
the index (`errors="ignore"`: absent labels are skipped silently) and
recomputes the proportion column over the remaining counts.  As in
`calc_p_word`, a zero denominator yields NaN (`none`) proportions. -/
def filter_vocab (closedClass : List String) (rows : List VocabRow) : List VocabRow :=
  (rows.filter (fun r => !(decide (r.word ∈ closedClass)))).map (fun r =>
    ⟨r.word, r.count,
     if filteredDenom closedClass rows = 0 then none
     else some ((r.count : ℚ) / (filteredDenom closedClass rows : ℚ))⟩)

/-! ### `load_or_prepare_npmi_terms` (source lines 683-718) and
`load_or_prepare_vocab` (source lines 391-416) -/

/-- The `vocab_counts_df.loc[word, CNT]` lookup: the count of the first row
whose index equals the word (the index is unique in the source). -/
def lookupCount (rows : List VocabRow) (w : String) : Option Nat :=
  (rows.find? (fun r => r.word == w)).map (fun r => r.count)

/-- Source lines 701-713: the fresh scan — configured terms present in the
vocabulary index, then those whose count is at least the minimum, in
term-list order. -/
def freshAvailableTerms (termlist : List String) (rows : List VocabRow)
    (minCount : Nat) : List String :=
  (termlist.filter (fun t => (lookupCount rows t).isSome)).filter
    (fun t => minCount ≤ (lookupCount rows t).getD 0)

/-- Python runtime error raised when a local variable is read before any
assignment. -/
inductive PyErr
  | unboundLocalError
deriving DecidableEq

/-- Outcome of a Python call: a returned value or a raised error. -/
inductive PyResult (α : Type)
  | ok (val : α)
  | error (e : PyErr)
deriving DecidableEq

/-- The guard of source lines 692-697: the persisted record exists and its
`"available terms"` entry is non-empty. -/
def cachedTermsNonEmpty (cached : Option (List String)) : Bool :=
  match cached with
  | some ts => !ts.isEmpty
  | none => false

/-- Source lines 683-718, `load_or_prepare_npmi_terms`.  `cached` is the
persisted `npmi_terms.json` content (`none`: no file).  When the cached
record is trusted it is returned as-is; otherwise, unless `load_only`, the
fresh scan runs (and is persisted, not modelled).  When neither branch
assigns `available_terms`, line 717 reads an unassigned local and Python
raises `UnboundLocalError`. -/
def load_or_prepare_npmi_terms (useCache loadOnly : Bool)
    (cached : Option (List String)) (termlist : List String)
    (rows : List VocabRow) (minCount : Nat) : PyResult (List String) :=
  if useCache && cachedTermsNonEmpty cached then
    PyResult.ok (cached.getD [])
  else if !loadOnly then
    PyResult.ok (freshAvailableTerms termlist rows minCount)
  else
    PyResult.error PyErr.unboundLocalError

/-- Source lines 391-416, `load_or_prepare_vocab`, reduced to the
vocab-counts artifact: load from cache when present, else compute unless
`load_only`, else leave the artifact unset (`none`), without error. -/
def load_or_prepare_vocab (useCache loadOnly : Bool)
    (cachedVocab : Option (List VocabRow)) (corpus : List (List String))
    (bs : List Nat) : Option (List VocabRow) :=
  if useCache && cachedVocab.isSome then cachedVocab
  else if !loadOnly then some (calc_p_word (count_vocab_frequencies corpus bs))
  else none

/-! ### The joint-nPMI pipeline (source lines 720-883 and 961-979)

The `nPMI` class of `data_measurements/npmi/npmi.py` is not part of the
repository sources here; its per-term computation `calc_metrics` is taken as
an abstract parameter `calcMetrics : String → SubgroupData` (the object is
constructed once per session from the fixed vocabulary and tokenized corpus,
so the per-term result is a function of the term alone), and its pairwise
join `calc_paired_metrics` is modelled from the spec below. -/

/-- Per-subgroup artifact triple: co-occurrence counts, PMI scores and nPMI
scores, each indexed by vocabulary word (the three `{term}_*.csv` files). -/
structure SubgroupData where
  cooc : List (String × Nat)
  pmi : List (String × ℚ)
  npmi : List (String × ℚ)
deriving DecidableEq

/-- One row of the paired result produced by the nPMI engine. -/
structure PairedRow where
  word : String
  npmi1 : ℚ
  npmi2 : ℚ
  count1 : Nat
  count2 : Nat
  bias : ℚ
deriving DecidableEq

/-- One row of the UI table built by `make_npmi_fig`: the second subgroup's
columns exist only when the two subgroup names differ (source lines
972-978). -/
structure UIRow where
  word : String
  bias : ℚ
  npmi1 : ℚ
  count1 : Nat
  npmi2 : Option ℚ
  count2 : Option Nat
deriving DecidableEq

/-- Modelled from the spec: `nPMI.calc_paired_metrics` (absent
`data_measurements/npmi/npmi.py`) joins the two subgroups' nPMI tables on
shared vocabulary words (inner join), carries both subgroups' co-occurrence
counts, and sets `bias = npmi_subgroup1 − npmi_subgroup2`. -/
def calc_paired_metrics (d1 d2 : SubgroupData) : List PairedRow :=
  d1.npmi.filterMap (fun p =>
    match d2.npmi.lookup p.1, d1.cooc.lookup p.1, d2.cooc.lookup p.1 with
    | some n2, some c1, some c2 => some ⟨p.1, p.2, n2, c1, c2, p.2 - n2⟩
    | _, _, _ => none)

/-- Stable insertion by ascending bias, modelling
`sort_values(by="npmi-bias", ascending=True)`. -/
def insertByBias (r : UIRow) : List UIRow → List UIRow
  | [] => [r]
  | x :: xs => if r.bias ≤ x.bias then r :: x :: xs else x :: insertByBias r xs

/-- Sort UI rows by ascending bias. -/
def sortByBias : List UIRow → List UIRow
  | [] => []
  | x :: xs => insertByBias x (sortByBias xs)

/-- Source lines 961-979, `make_npmi_fig`: assembles the UI table from the
paired results (bias, per-subgroup npmi and count columns — the second
subgroup's only when the names differ) and sorts by bias ascending. -/
def make_npmi_fig (paired : List PairedRow) (pair : String × String) : List UIRow :=
  sortByBias (paired.map (fun p =>
    ⟨p.word, p.bias, p.npmi1, p.count1,
     if pair.1 = pair.2 then none else some p.npmi2,
     if pair.1 = pair.2 then none else some p.count2⟩))

/-- Lexicographic code-point comparison of character lists, the order Python
uses on strings. -/
def strLtAux : List Char → List Char → Bool
  | [], [] => false
  | [], _ :: _ => true
  | _ :: _, [] => false
  | a :: as, b :: bs => if a = b then strLtAux as bs else decide (a.toNat < b.toNat)

/-- Python string `<`. -/
def strLtb (a b : String) : Bool :=
  strLtAux a.data b.data

/-- Canonical ordering of a subgroup pair: Python `sorted` on the two names
(source lines 728 and 822). -/
def sortPair (p : String × String) : String × String :=
  if strLtb p.2 p.1 then (p.2, p.1) else p

/-- One iteration of the loop at source lines 824-831: if the subgroup is
not in the dictionary, compute its metrics and add them. -/
def fillSubgroup (calcMetrics : String → SubgroupData)
    (dict : List (String × SubgroupData)) (s : String) :
    List (String × SubgroupData) :=
  if (dict.lookup s).isSome then dict else dict ++ [(s, calcMetrics s)]

/-- Source lines 811-838, `do_npmi`: canonicalize the pair, fill the
subgroup dictionary for both terms, join via `calc_paired_metrics` and build
the UI table; returns the table and the filled dictionary. -/
def do_npmi (calcMetrics : String → SubgroupData) (pair : String × String)
    (dict : List (String × SubgroupData)) :
    List UIRow × List (String × SubgroupData) :=
  let sp := sortPair pair
  let dict2 := fillSubgroup calcMetrics (fillSubgroup calcMetrics dict sp.1) sp.2
  (make_npmi_fig
    (calc_paired_metrics ((dict2.lookup sp.1).getD (calcMetrics sp.1))
      ((dict2.lookup sp.2).getD (calcMetrics sp.2))) sp, dict2)

/-- The cache-loading loop of source lines 794-804: each subgroup of the
pair whose three per-term files all exist contributes its triple to the
dictionary. -/
def loadCachedSubgroups (subgroupCache : List (String × SubgroupData))
    (pair : String × String) : List (String × SubgroupData) :=
  [pair.1, pair.2].filterMap
    (fun s => (subgroupCache.lookup s).map (fun d => (s, d)))

/-- Source lines 783-808, `prepare_joint_npmi_df`: preload cached per-term
triples, then hand the pair to `do_npmi` (the final `dropna()` is the
identity on these total-valued tables). -/
def prepare_joint_npmi_df (calcMetrics : String → SubgroupData)
    (subgroupCache : List (String × SubgroupData)) (pair : String × String) :
    List UIRow × List (String × SubgroupData) :=
  do_npmi calcMetrics pair (loadCachedSubgroups subgroupCache pair)

/-- On-disk state of the `pmi_files` cache directory: per-pair joint tables
keyed by `"{s1}-{s2}"` and per-term subgroup triples keyed by term. -/
structure NpmiCacheState where
  jointCache : List (String × List UIRow)
  subgroupCache : List (String × SubgroupData)
deriving DecidableEq

/-- Result of a joint-bias request.  The error constructor is the
`UnavailableSubgroupError` rejection the spec postulates; the source code
below never produces it. -/
inductive JointResult
  | table (df : List UIRow) (st : NpmiCacheState)
  | unavailableSubgroupError
deriving DecidableEq

/-- A `JointResult` that carries a table. -/
def JointResult.isTable : JointResult → Bool
  | .table _ _ => true
  | .unavailableSubgroupError => false

/-- The pair-artifact cache key `"-".join(sorted(subgroup_pair))`. -/
def jointKey (pair : String × String) : String :=
  (sortPair pair).1 ++ "-" ++ (sortPair pair).2

/-- Body of `load_or_prepare_joint_npmi` after the canonical sort (source
lines 728-769): with `use_cache` and an existing joint artifact, load it
(value-faithful round trip; the display-column selection reorders columns
only); otherwise compute via `prepare_joint_npmi_df` and persist the two
subgroup triples and the joint table. -/
def load_or_prepare_joint_npmi_sorted (calcMetrics : String → SubgroupData)
    (useCache : Bool) (st : NpmiCacheState) (sp : String × String) : JointResult :=
  if useCache && (st.jointCache.lookup (sp.1 ++ "-" ++ sp.2)).isSome then
    JointResult.table ((st.jointCache.lookup (sp.1 ++ "-" ++ sp.2)).getD []) st
  else
    JointResult.table (prepare_joint_npmi_df calcMetrics st.subgroupCache sp).1
      ⟨(sp.1 ++ "-" ++ sp.2, (prepare_joint_npmi_df calcMetrics st.subgroupCache sp).1)
         :: st.jointCache,
       (sp.2, ((prepare_joint_npmi_df calcMetrics st.subgroupCache sp).2.lookup sp.2).getD
          (calcMetrics sp.2))
         :: (sp.1, ((prepare_joint_npmi_df calcMetrics st.subgroupCache sp).2.lookup sp.1).getD
          (calcMetrics sp.1))
         :: st.subgroupCache⟩

/-- Source lines 720-769, `load_or_prepare_joint_npmi`: canonicalize the
requested pair by sorting, then dispatch on the cache. -/
def load_or_prepare_joint_npmi (calcMetrics : String → SubgroupData)
    (useCache : Bool) (st : NpmiCacheState) (pair : String × String) : JointResult :=
  load_or_prepare_joint_npmi_sorted calcMetrics useCache st (sortPair pair)

/-- Bias value of a word in a UI table. -/
def uiBias (df : List UIRow) (w : String) : Option ℚ :=
  (df.find? (fun r => r.word == w)).map (fun r => r.bias)

/-! ### Concrete instances used by counterexamples and witnesses -/

/-- Concrete stand-in for the per-term metric computation: subgroup
`"man"` has nPMI 1/2 on vocabulary word `"w"`, subgroup `"woman"` has
nPMI 0 there. -/
def cm0 : String → SubgroupData :=
  fun s =>
    if s = "man" then ⟨[("w", 3)], [("w", 1/2)], [("w", 1/2)]⟩
    else if s = "woman" then ⟨[("w", 2)], [("w", 0)], [("w", 0)]⟩
    else ⟨[], [], []⟩

/-- Empty cache directory. -/
def st0 : NpmiCacheState := ⟨[], []⟩

/-- A vocabulary in which both `"man"` and `"woman"` are available
(counts at least `MIN_VOCAB_COUNT`). -/
def availRows : List VocabRow :=
  [⟨"man", 12, none⟩, ⟨"woman", 15, none⟩]

/-- The joint table the pipeline produces from `cm0` for the pair
`("man", "woman")`. -/
def T0 : List UIRow := [⟨"w", 1/2, 1/2, 3, some 0, some 2⟩]

/-- The cache state after computing and persisting `T0`. -/
def S0 : NpmiCacheState :=
  ⟨[("man-woman", T0)],
   [("woman", ⟨[("w", 2)], [("w", 0)], [("w", 0)]⟩),
    ("man", ⟨[("w", 3)], [("w", 1/2)], [("w", 1/2)]⟩)]⟩

/-- Per-term cache holding `"man"`'s triple exactly as `cm0` computes it
(a partially cached state). -/
def sc0 : List (String × SubgroupData) :=
  [("man", ⟨[("w", 3)], [("w", 1/2)], [("w", 1/2)]⟩)]

/-- Concrete corpus of the spec's seed scenario, already tokenized. -/
def corpus0 : List (List String) :=
  [["the", "cat", "sat"], ["the", "dog", "sat"], ["cat", "and", "dog", "play"]]

/-! ## Theorems -/

theorem char_eq_of_toNat_eq (c d : Char) (h : c.toNat = d.toNat) : c = d :=
  Char.eq_of_val_eq (UInt32.toNat.inj h)

theorem strLtAux_asymm : ∀ x y, strLtAux x y = true → strLtAux y x = false := by
  intro x
  induction x with
  | nil => intro y h; cases y <;> simp_all [strLtAux]
  | cons a as ih =>
    intro y h
    cases y with
    | nil => simp [strLtAux] at h
    | cons b bs =>
      simp only [strLtAux] at h ⊢
      by_cases hab : a = b
      · subst hab
        simp only [if_pos rfl] at h ⊢
        exact ih bs h
      · rw [if_neg hab] at h
        rw [if_neg (fun hba => hab hba.symm)]
        simp only [decide_eq_true_eq] at h
        simp only [decide_eq_false_iff_not]
        omega

theorem strLtAux_antisymm : ∀ x y, strLtAux x y = false → strLtAux y x = false → x = y := by
  intro x
  induction x with
  | nil =>
    intro y h1 _
    cases y with
    | nil => rfl
    | cons b bs => simp [strLtAux] at h1
  | cons a as ih =>
    intro y h1 h2
    cases y with
    | nil => simp [strLtAux] at h2
    | cons b bs =>
      simp only [strLtAux] at h1 h2
      by_cases hab : a = b
      · subst hab
        rw [if_pos rfl] at h1
        rw [if_pos rfl] at h2
        rw [ih bs h1 h2]
      · rw [if_neg hab] at h1
        rw [if_neg (fun hba => hab hba.symm)] at h2
        simp only [decide_eq_false_iff_not] at h1 h2
        exact absurd (char_eq_of_toNat_eq a b (by omega)) hab

theorem sortPair_comm (a b : String) : sortPair (a, b) = sortPair (b, a) := by
  unfold sortPair
  cases h1 : strLtb b a with
  | true =>
    have h2 : strLtb a b = false := strLtAux_asymm _ _ h1
    simp [h1, h2]
  | false =>
    cases h2 : strLtb a b with
    | true => simp [h1, h2]
    | false =>
      have hd : a.data = b.data := strLtAux_antisymm _ _ h2 h1
      have hab : a = b := by
        cases a
        cases b
        simp_all
      simp [h1, h2, hab]

theorem sliceCount_add_suffixCount (corpus : List (List String)) (w : String)
    (lo hi : Nat) (h : lo ≤ hi) :
    sliceCount corpus lo hi w + suffixCount corpus hi w = suffixCount corpus lo w := by
  unfold sliceCount suffixCount
  have hdrop : corpus.drop hi = (corpus.drop lo).drop (hi - lo) := by
    rw [List.drop_drop]
    congr 1
    omega
  rw [hdrop, ← List.sum_append, ← List.map_append, List.take_append_drop]

theorem batchedCount_add_suffix (corpus : List (List String)) (w : String) :
    ∀ (b : Nat) (rest : List Nat), (b :: rest).Sorted (· ≤ ·) →
      batchedCount corpus (b :: rest) w +
        suffixCount corpus ((b :: rest).getLast (by simp)) w =
      suffixCount corpus b w := by
  intro b rest
  induction rest generalizing b with
  | nil => intro _; simp [batchedCount]
  | cons b2 rest ih =>
    intro hs
    have hle : b ≤ b2 := (List.sorted_cons.mp hs).1 b2 (by simp)
    have hs2 : (b2 :: rest).Sorted (· ≤ ·) := (List.sorted_cons.mp hs).2
    have hlast : (b :: b2 :: rest).getLast (by simp) =
        (b2 :: rest).getLast (by simp) := by
      simp [List.getLast]
    rw [hlast]
    have hrec := ih b2 hs2
    calc batchedCount corpus (b :: b2 :: rest) w +
          suffixCount corpus ((b2 :: rest).getLast (by simp)) w
        = sliceCount corpus b b2 w +
            (batchedCount corpus (b2 :: rest) w +
              suffixCount corpus ((b2 :: rest).getLast (by simp)) w) := by
          simp [batchedCount]
          omega
      _ = sliceCount corpus b b2 w + suffixCount corpus b2 w := by rw [hrec]
      _ = suffixCount corpus b w := sliceCount_add_suffixCount corpus w b b2 hle

theorem batchedCount_eq_directCount (corpus : List (List String))
    (bs : List Nat) (hs : bs.Sorted (· ≤ ·)) (h0 : bs.head? = some 0)
    (hl : bs.getLast? = some corpus.length) (w : String) :
    batchedCount corpus bs w = directCount corpus w := by
  match bs, h0 with
  | b :: rest, h0 =>
    have hb : b = 0 := by simpa using h0
    subst hb
    have hmain := batchedCount_add_suffix corpus w 0 rest hs
    have hne : (0 :: rest) ≠ ([] : List Nat) := by simp
    have hlast : (0 :: rest).getLast hne = corpus.length := by
      rw [List.getLast?_eq_getLast _ hne] at hl
      exact Option.some.inj hl
    rw [hlast] at hmain
    have hsuff : suffixCount corpus corpus.length w = 0 := by
      simp [suffixCount]
    have hdir : suffixCount corpus 0 w = directCount corpus w := by
      simp [suffixCount, directCount]
    omega

theorem mem_insertByCountDesc (r x : VocabRow) (l : List VocabRow) :
    x ∈ insertByCountDesc r l ↔ x = r ∨ x ∈ l := by
  induction l with
  | nil => simp [insertByCountDesc]
  | cons y ys ih =>
    simp only [insertByCountDesc]
    split
    · simp [List.mem_cons]
    · simp only [List.mem_cons, ih]
      tauto

theorem mem_sortByCountDesc (x : VocabRow) (l : List VocabRow) :
    x ∈ sortByCountDesc l ↔ x ∈ l := by
  induction l with
  | nil => simp [sortByCountDesc]
  | cons y ys ih =>
    simp only [sortByCountDesc, mem_insertByCountDesc, List.mem_cons, ih]

/-- C9: for every tokenized corpus and every valid batch-boundary list
(nondecreasing, starting at 0 and ending at the document count — the shape
`np.linspace(0, n, _NUM_VOCAB_BATCHES).astype(int)` produces), the word
counts computed by `count_vocab_frequencies` equal the single unbatched
summation `directCount` on every vocabulary word: the batched accumulation
is independent of the batching. -/
theorem claim_C9_batch_independent (corpus : List (List String)) (bs : List Nat)
    (hs : bs.Sorted (· ≤ ·)) (h0 : bs.head? = some 0)
    (hl : bs.getLast? = some corpus.length) :
    count_vocab_frequencies corpus bs =
      (vocabKeys corpus).map (fun w => (w, directCount corpus w)) := by
  unfold count_vocab_frequencies
  apply List.map_congr_left
  intro w _
  rw [batchedCount_eq_directCount corpus bs hs h0 hl w]

/-- Witness for C9 at the spec's seed corpus with an uneven boundary list. -/
theorem claim_C9_witness :
    ([0, 2, 2, 3] : List Nat).Sorted (· ≤ ·)
    ∧ ([0, 2, 2, 3] : List Nat).head? = some 0
    ∧ ([0, 2, 2, 3] : List Nat).getLast? = some corpus0.length
    ∧ count_vocab_frequencies corpus0 [0, 2, 2, 3] =
        (vocabKeys corpus0).map (fun w => (w, directCount corpus0 w)) :=
  ⟨by decide, by decide, by decide,
   claim_C9_batch_independent corpus0 [0, 2, 2, 3] (by decide) (by decide) (by decide)⟩

/-- C7 (amended): `calc_p_word` never raises on a zero-total table — the
float division yields NaN proportions instead — and on every positive-total
table each row's proportion is its count divided by the total count. -/
theorem claim_C7_theorem (wc : List (String × Nat)) :
    (0 < totalCount wc →
      ∀ r ∈ calc_p_word wc,
        r.prop = some ((r.count : ℚ) / (totalCount wc : ℚ)))
    ∧ (totalCount wc = 0 → ∀ r ∈ calc_p_word wc, r.prop = none) := by
  constructor
  · intro h r hr
    unfold calc_p_word at hr
    rw [mem_sortByCountDesc] at hr
    rcases List.mem_map.mp hr with ⟨p, _, rfl⟩
    simp only
    rw [if_neg (by omega)]
  · intro h r hr
    unfold calc_p_word at hr
    rw [mem_sortByCountDesc] at hr
    rcases List.mem_map.mp hr with ⟨p, _, rfl⟩
    simp only
    rw [if_pos h]

/-- Counterexample for C7 as stated: on a table whose total count is 0,
`calc_p_word` returns a table (with an undefined, NaN proportion) — it does
not fail with any error. -/
theorem claim_C7_counterexample :
    calc_p_word [(("a"), 0)] = [⟨("a"), 0, none⟩] := by decide

/-- Witness for C7 on a concrete positive-total table. -/
theorem claim_C7_witness :
    0 < totalCount [(("a"), 2), (("b"), 2)]
    ∧ ∀ r ∈ calc_p_word [(("a"), 2), (("b"), 2)],
        r.prop = some ((r.count : ℚ) / (totalCount [(("a"), 2), (("b"), 2)] : ℚ)) :=
  ⟨by decide, (claim_C7_theorem [(("a"), 2), (("b"), 2)]).1 (by decide)⟩

theorem sum_filterMap_some (l : List VocabRow) (f : VocabRow → ℚ) :
    (l.filterMap (fun r => some (f r))).sum = (l.map f).sum := by
  induction l with
  | nil => rfl
  | cons x xs ih => simp [List.filterMap_cons, ih]

theorem sum_map_div_rat (l : List VocabRow) (d : ℚ) :
    (l.map (fun r => (r.count : ℚ) / d)).sum
      = ((l.map (fun r => ((r.count : Nat) : ℚ))).sum) / d := by
  induction l with
  | nil => simp
  | cons x xs ih => simp [ih, add_div]

/-- C8 (amended): the key set of `filter_vocab`'s result is exactly the key
set of the input minus the closed-class set (exact case-sensitive match,
absent exclusion entries ignored silently), and the recomputed proportions
sum to 1 whenever the surviving open-class total count is positive (with an
all-closed-class or zero-count remainder the proportions are NaN/empty and
the sum is 0, see the counterexample). -/
theorem claim_C8_filter_vocab (closedClass : List String) (rows : List VocabRow)
    (w : String) :
    (w ∈ (filter_vocab closedClass rows).map (fun r => r.word) ↔
      w ∈ rows.map (fun r => r.word) ∧ w ∉ closedClass)
    ∧ (0 < filteredDenom closedClass rows →
        ((filter_vocab closedClass rows).filterMap (fun r => r.prop)).sum = 1) := by
  constructor
  · simp only [filter_vocab, List.map_map, List.mem_map, List.mem_filter,
      Function.comp_apply, Bool.not_eq_true', decide_eq_false_iff_not]
    constructor
    · rintro ⟨r, ⟨hrm, hnc⟩, rfl⟩
      exact ⟨⟨r, hrm, rfl⟩, hnc⟩
    · rintro ⟨⟨r, hrm, rfl⟩, hnc⟩
      exact ⟨r, ⟨hrm, hnc⟩, rfl⟩
  · intro h
    have hne : filteredDenom closedClass rows ≠ 0 := by omega
    unfold filter_vocab
    rw [List.filterMap_map]
    have hcomp :
        ((fun r : VocabRow => r.prop) ∘
          (fun r : VocabRow =>
            (⟨r.word, r.count,
              if filteredDenom closedClass rows = 0 then none
              else some ((r.count : ℚ) / (filteredDenom closedClass rows : ℚ))⟩ :
              VocabRow)))
        = fun r : VocabRow =>
            some ((r.count : ℚ) / (filteredDenom closedClass rows : ℚ)) := by
      funext r
      simp [if_neg hne]
    rw [hcomp, sum_filterMap_some, sum_map_div_rat]
    have hcast :
        ((rows.filter (fun r => !(decide (r.word ∈ closedClass)))).map
          (fun r => ((r.count : Nat) : ℚ))).sum
        = ((filteredDenom closedClass rows : Nat) : ℚ) := by
      unfold filteredDenom
      rw [Nat.cast_list_sum, List.map_map]
      rfl
    rw [hcast, div_self]
    exact Nat.cast_ne_zero.mpr hne

/-- Counterexample for C8 as stated: a vocabulary containing only the
closed-class word `"would"` filters to the empty table, whose proportions
sum to 0, not 1. -/
theorem claim_C8_counterexample :
    filter_vocab (_CLOSED_CLASS []) [⟨("would"), 5, some 1⟩] = []
    ∧ ((filter_vocab (_CLOSED_CLASS []) [⟨("would"), 5, some 1⟩]).filterMap
        (fun r => r.prop)).sum = 0
    ∧ decide ((0 : ℚ) = 1) = false := by decide

/-- Witness for C8 on a concrete vocabulary with a surviving open word. -/
theorem claim_C8_witness :
    0 < filteredDenom (_CLOSED_CLASS []) [⟨("apple"), 4, some 1⟩]
    ∧ ((filter_vocab (_CLOSED_CLASS []) [⟨("apple"), 4, some 1⟩]).filterMap
        (fun r => r.prop)).sum = 1 :=
  ⟨by decide,
   (claim_C8_filter_vocab (_CLOSED_CLASS []) [⟨("apple"), 4, some 1⟩] ("apple")).2
     (by decide)⟩

theorem tokenizeAcc_chars (l : List Char) :
    ∀ (acc : List Char) (t : List Char), t ∈ tokenizeAcc l acc →
      ∀ c ∈ t, c ∈ l ∨ c ∈ acc := by
  induction l with
  | nil =>
    intro acc t ht c hc
    by_cases h : acc.isEmpty
    · simp [tokenizeAcc, h] at ht
    · simp only [tokenizeAcc, if_neg h, List.mem_singleton] at ht
      subst ht
      exact Or.inr (List.mem_reverse.mp hc)
  | cons c0 rest ih =>
    intro acc t ht c hc
    by_cases hw : isWordChar c0
    · simp only [tokenizeAcc, if_pos hw] at ht
      rcases ih (c0 :: acc) t ht c hc with h | h
      · exact Or.inl (List.mem_cons_of_mem _ h)
      · rcases List.mem_cons.mp h with rfl | h
        · exact Or.inl (List.mem_cons_self _ _)
        · exact Or.inr h
    · by_cases ha : acc.isEmpty
      · simp only [tokenizeAcc, if_neg hw, if_pos ha] at ht
        rcases ih [] t ht c hc with h | h
        · exact Or.inl (List.mem_cons_of_mem _ h)
        · simp at h
      · simp only [tokenizeAcc, if_neg hw, if_neg ha, List.mem_cons] at ht
        rcases ht with rfl | ht2
        · exact Or.inr (List.mem_reverse.mp hc)
        · rcases ih [] t ht2 c hc with h | h
          · exact Or.inl (List.mem_cons_of_mem _ h)
          · simp at h

theorem toNat_lowerChar_of_upper (c : Char) (h : 65 ≤ c.toNat ∧ c.toNat ≤ 90) :
    (lowerChar c).toNat = c.toNat + 32 := by
  unfold lowerChar
  rw [dif_pos h]
  rfl

theorem isUpperChar_lowerChar (c : Char) : isUpperChar (lowerChar c) = false := by
  by_cases h : 65 ≤ c.toNat ∧ c.toNat ≤ 90
  · have ht := toNat_lowerChar_of_upper c h
    unfold isUpperChar
    rw [ht]
    simp only [Bool.and_eq_false_iff, decide_eq_false_iff_not]
    omega
  · unfold lowerChar
    rw [dif_neg h]
    unfold isUpperChar
    simp only [Bool.and_eq_false_iff, decide_eq_false_iff_not]
    omega

theorem tokenize_pyLower_lower (s : String) (tok : String)
    (h : tok ∈ tokenize (pyLower s)) : isLowerString tok = true := by
  unfold tokenize at h
  rcases List.mem_map.mp h with ⟨cs, hcs, rfl⟩
  unfold isLowerString
  rw [List.all_eq_true]
  intro c hc
  have hmem : c ∈ (pyLower s).data ∨ c ∈ ([] : List Char) :=
    tokenizeAcc_chars (pyLower s).data [] cs hcs c hc
  rcases hmem with hmem | hmem
  · have : c ∈ s.data.map lowerChar := hmem
    rcases List.mem_map.mp this with ⟨c0, _, rfl⟩
    simp [isUpperChar_lowerChar]
  · simp at hmem

theorem not_lower_of_hasUpper (s : String) (h : hasUpperChar s = true) :
    isLowerString s = false := by
  unfold hasUpperChar at h
  unfold isLowerString
  rcases List.any_eq_true.mp h with ⟨c, hc, hup⟩
  rw [List.all_eq_false]
  exact ⟨c, hc, by simp [hup]⟩

theorem vocab_key_lowercase (texts : List String) (bs : List Nat)
    (p : String × Nat)
    (hp : p ∈ count_vocab_frequencies (do_tokenization texts) bs) :
    isLowerString p.1 = true := by
  unfold count_vocab_frequencies at hp
  rcases List.mem_map.mp hp with ⟨w, hw, rfl⟩
  unfold vocabKeys at hw
  rw [List.mem_dedup] at hw
  rcases List.mem_flatten.mp hw with ⟨doc, hdoc, hwdoc⟩
  unfold do_tokenization at hdoc
  rcases List.mem_map.mp hdoc with ⟨t, _, rfl⟩
  exact tokenize_pyLower_lower t w hwdoc

/-- C10: every word key in the vocabulary produced by `do_tokenization`
followed by `count_vocab_frequencies` is a lowercase string (each text is
lowercased before tokenization), and consequently a configured identity term
containing an uppercase character can never be available in such a
vocabulary. -/
theorem claim_C10_lowercase_vocab (texts : List String) (bs : List Nat)
    (termlist : List String) (minCount : Nat) :
    (∀ p ∈ count_vocab_frequencies (do_tokenization texts) bs,
       isLowerString p.1 = true)
    ∧ (∀ term : String, hasUpperChar term = true →
        term ∉ freshAvailableTerms termlist
          (calc_p_word (count_vocab_frequencies (do_tokenization texts) bs))
          minCount) := by
  refine ⟨fun p hp => vocab_key_lowercase texts bs p hp, ?_⟩
  intro term hup hmem
  unfold freshAvailableTerms at hmem
  have h1 := List.mem_filter.mp hmem
  have h2 := List.mem_filter.mp h1.1
  have hsome : (lookupCount
      (calc_p_word (count_vocab_frequencies (do_tokenization texts) bs))
      term).isSome = true := by
    simpa using h2.2
  unfold lookupCount at hsome
  cases hfind : List.find? (fun r => r.word == term)
      (calc_p_word (count_vocab_frequencies (do_tokenization texts) bs)) with
  | none =>
    rw [hfind] at hsome
    simp at hsome
  | some r =>
    have hrmem := List.mem_of_find?_eq_some hfind
    have hrword := List.find?_some hfind
    have hrw : r.word = term := by simpa using hrword
    unfold calc_p_word at hrmem
    rw [mem_sortByCountDesc] at hrmem
    rcases List.mem_map.mp hrmem with ⟨p, hp, hpr⟩
    have hlow : isLowerString p.1 = true := vocab_key_lowercase texts bs p hp
    have hwp : r.word = p.1 := by rw [← hpr]
    rw [hrw] at hwp
    rw [← hwp] at hlow
    rw [not_lower_of_hasUpper term hup] at hlow
    exact Bool.false_ne_true hlow

/-- Witness for C10 on a concrete text containing uppercase letters. -/
theorem claim_C10_witness :
    hasUpperChar ("The") = true
    ∧ (∀ p ∈ count_vocab_frequencies (do_tokenization (["The Cat sat"])) [0, 1],
        isLowerString p.1 = true)
    ∧ ("The") ∉ freshAvailableTerms _IDENTITY_TERMS
        (calc_p_word (count_vocab_frequencies (do_tokenization (["The Cat sat"])) [0, 1]))
        MIN_VOCAB_COUNT :=
  ⟨by decide,
   (claim_C10_lowercase_vocab (["The Cat sat"]) [0, 1] _IDENTITY_TERMS MIN_VOCAB_COUNT).1,
   (claim_C10_lowercase_vocab (["The Cat sat"]) [0, 1] _IDENTITY_TERMS MIN_VOCAB_COUNT).2
     ("The") (by decide)⟩

theorem mem_freshAvailableTerms (termlist : List String) (rows : List VocabRow)
    (minCount : Nat) (t : String) :
    t ∈ freshAvailableTerms termlist rows minCount ↔
      t ∈ termlist ∧ ∃ c, lookupCount rows t = some c ∧ minCount ≤ c := by
  unfold freshAvailableTerms
  simp only [List.mem_filter, decide_eq_true_eq]
  constructor
  · rintro ⟨⟨htl, hsome⟩, hge⟩
    cases hl : lookupCount rows t with
    | none => rw [hl] at hsome; simp at hsome
    | some c =>
      refine ⟨htl, c, rfl, ?_⟩
      rw [hl] at hge
      simpa using hge
  · rintro ⟨htl, c, hl, hge⟩
    refine ⟨⟨htl, by simp [hl]⟩, ?_⟩
    rw [hl]
    simpa using hge

/-- C5: a non-empty persisted availability record under `use_cache` is
returned as-is (for any vocabulary — no rescan); otherwise, when not
load-only, the fresh scan returns exactly the configured terms present in
the vocabulary with count at least the minimum, and the empty collection
when no configured term qualifies. -/
theorem claim_C5_npmi_terms (loadOnly useCache : Bool) (ts : List String)
    (hts : ts ≠ []) (cached : Option (List String))
    (hnc : cachedTermsNonEmpty cached = false)
    (termlist : List String) (rows : List VocabRow) (minCount : Nat) (t : String) :
    load_or_prepare_npmi_terms true loadOnly (some ts) termlist rows minCount
      = PyResult.ok ts
    ∧ load_or_prepare_npmi_terms useCache false cached termlist rows minCount
      = PyResult.ok (freshAvailableTerms termlist rows minCount)
    ∧ (t ∈ freshAvailableTerms termlist rows minCount ↔
        t ∈ termlist ∧ ∃ c, lookupCount rows t = some c ∧ minCount ≤ c)
    ∧ ((∀ u ∈ termlist, ∀ c, lookupCount rows u = some c → c < minCount) →
        freshAvailableTerms termlist rows minCount = []) := by
  have hne : ts.isEmpty = false := by
    cases ts with
    | nil => exact absurd rfl hts
    | cons x xs => rfl
  refine ⟨?_, ?_, mem_freshAvailableTerms termlist rows minCount t, ?_⟩
  · simp [load_or_prepare_npmi_terms, cachedTermsNonEmpty, hne]
  · simp [load_or_prepare_npmi_terms, hnc]
  · intro hall
    rw [List.eq_nil_iff_forall_not_mem]
    intro u hu
    rw [mem_freshAvailableTerms] at hu
    rcases hu with ⟨hul, c, hl, hge⟩
    exact absurd hge (by have := hall u hul c hl; omega)

/-- Witness for C5 at a concrete cached record and a concrete vocabulary. -/
theorem claim_C5_witness :
    (["she"] : List String) ≠ []
    ∧ cachedTermsNonEmpty none = false
    ∧ load_or_prepare_npmi_terms true true (some ["she"]) _IDENTITY_TERMS [] MIN_VOCAB_COUNT
        = PyResult.ok ["she"]
    ∧ load_or_prepare_npmi_terms true false none _IDENTITY_TERMS availRows MIN_VOCAB_COUNT
        = PyResult.ok (freshAvailableTerms _IDENTITY_TERMS availRows MIN_VOCAB_COUNT)
    ∧ (("man") ∈ freshAvailableTerms _IDENTITY_TERMS availRows MIN_VOCAB_COUNT ↔
        ("man") ∈ _IDENTITY_TERMS
        ∧ ∃ c, lookupCount availRows ("man") = some c ∧ MIN_VOCAB_COUNT ≤ c) := by
  refine ⟨by decide, by decide, ?_, ?_, ?_⟩
  · exact (claim_C5_npmi_terms true true ["she"] (by decide) none (by decide)
      _IDENTITY_TERMS [] MIN_VOCAB_COUNT ("man")).1
  · exact (claim_C5_npmi_terms true true ["she"] (by decide) none (by decide)
      _IDENTITY_TERMS availRows MIN_VOCAB_COUNT ("man")).2.1
  · exact (claim_C5_npmi_terms true true ["she"] (by decide) none (by decide)
      _IDENTITY_TERMS availRows MIN_VOCAB_COUNT ("man")).2.2.1

/-- C6: the failing input for the load-only claim — `load_only=True` with no
persisted `npmi_terms.json` — makes `load_or_prepare_npmi_terms` raise
`UnboundLocalError` (source line 717 reads a local that no branch assigned)
instead of returning an absent result, with or without `use_cache`; by
contrast `load_or_prepare_vocab` under the same conditions returns the
absent result the claim describes. -/
theorem claim_C6_load_only_unbound :
    load_or_prepare_npmi_terms true true none _IDENTITY_TERMS [] MIN_VOCAB_COUNT
      = PyResult.error PyErr.unboundLocalError
    ∧ load_or_prepare_npmi_terms false true none _IDENTITY_TERMS [] MIN_VOCAB_COUNT
      = PyResult.error PyErr.unboundLocalError
    ∧ load_or_prepare_vocab true true none corpus0 [0, 3] = none := by decide

/-- C1 (amended): `load_or_prepare_joint_npmi` canonicalizes the pair by
sorting before anything else, so the requests `(A,B)` and `(B,A)` produce
identical results — the same word set and the same (not negated) bias value
on every word, under the sign convention
`bias = npmi(first-sorted) − npmi(second-sorted)`. -/
theorem claim_C1_order_irrelevant (calcMetrics : String → SubgroupData)
    (useCache : Bool) (st : NpmiCacheState) (a b : String) :
    load_or_prepare_joint_npmi calcMetrics useCache st (a, b)
      = load_or_prepare_joint_npmi calcMetrics useCache st (b, a) := by
  unfold load_or_prepare_joint_npmi
  rw [sortPair_comm]

/-- C2 (amended): `load_or_prepare_joint_npmi` performs no availability
validation at all — for every cache state and every requested pair,
available or not, it returns a joint table and never an
`UnavailableSubgroupError`. -/
theorem claim_C2_no_availability_check (calcMetrics : String → SubgroupData)
    (useCache : Bool) (st : NpmiCacheState) (pair : String × String) :
    (load_or_prepare_joint_npmi calcMetrics useCache st pair).isTable = true := by
  unfold load_or_prepare_joint_npmi load_or_prepare_joint_npmi_sorted
  split <;> rfl

theorem lookup_filterMap_cache (sc : List (String × SubgroupData)) :
    ∀ (ks : List String) (s : String) (d : SubgroupData),
      ((ks.filterMap (fun k => (sc.lookup k).map (fun v => (k, v)))).lookup s
        = some d) → sc.lookup s = some d := by
  intro ks
  induction ks with
  | nil =>
    intro s d h
    simp [List.filterMap] at h
  | cons k ks ih =>
    intro s d h
    rw [List.filterMap_cons] at h
    cases hk : sc.lookup k with
    | none =>
      simp only [hk, Option.map_none'] at h
      exact ih s d h
    | some v =>
      simp only [hk, Option.map_some'] at h
      rw [List.lookup_cons] at h
      cases hsk : s == k with
      | true =>
        simp only [hsk] at h
        injection h with hv
        have hs : s = k := by simpa using hsk
        rw [hs, hk, hv]
      | false =>
        simp only [hsk] at h
        exact ih s d h

theorem fillSubgroup_invariant (cm : String → SubgroupData)
    (dict : List (String × SubgroupData)) (t : String)
    (h : ∀ s d, dict.lookup s = some d → d = cm s) :
    ∀ s d, (fillSubgroup cm dict t).lookup s = some d → d = cm s := by
  intro s d hd
  unfold fillSubgroup at hd
  split at hd
  · exact h s d hd
  · rw [List.lookup_append] at hd
    cases hl : dict.lookup s with
    | some v =>
      rw [hl] at hd
      simp only [Option.or_some] at hd
      injection hd with hv
      exact hv ▸ h s v hl
    | none =>
      rw [hl] at hd
      simp only [Option.none_or] at hd
      rw [List.lookup_cons] at hd
      cases hsk : s == t with
      | true =>
        simp only [hsk] at hd
        injection hd with hv
        have hs : s = t := by simpa using hsk
        rw [← hv, hs]
      | false =>
        simp only [hsk] at hd
        simp [List.lookup] at hd

theorem lookup_getD_eq (cm : String → SubgroupData)
    (dict : List (String × SubgroupData))
    (h : ∀ s d, dict.lookup s = some d → d = cm s) (s : String) :
    (dict.lookup s).getD (cm s) = cm s := by
  cases hl : dict.lookup s with
  | none => rfl
  | some d => simpa using h s d hl

theorem do_npmi_fst_eq (cm : String → SubgroupData) (pair : String × String)
    (dict : List (String × SubgroupData))
    (h : ∀ s d, dict.lookup s = some d → d = cm s) :
    (do_npmi cm pair dict).1 =
      make_npmi_fig
        (calc_paired_metrics (cm (sortPair pair).1) (cm (sortPair pair).2))
        (sortPair pair) := by
  have h1 := fillSubgroup_invariant cm dict (sortPair pair).1 h
  have h2 := fillSubgroup_invariant cm
    (fillSubgroup cm dict (sortPair pair).1) (sortPair pair).2 h1
  simp only [do_npmi]
  rw [lookup_getD_eq cm _ h2 (sortPair pair).1,
      lookup_getD_eq cm _ h2 (sortPair pair).2]

/-- C3: for every per-term metric function, every pair, and every per-term
cache whose entries are faithful (each cached triple equals what
`calc_metrics` computes for that term — which holds of entries persisted by
earlier runs over the same corpus), `prepare_joint_npmi_df` produces the
same joint table as with no per-term cache at all; in particular a state
with only subgroup A cached agrees with the fully uncached computation. -/
theorem claim_C3_cache_equivalence (calcMetrics : String → SubgroupData)
    (sc : List (String × SubgroupData)) (pair : String × String)
    (hfid : ∀ s d, sc.lookup s = some d → d = calcMetrics s) :
    (prepare_joint_npmi_df calcMetrics sc pair).1 =
      (prepare_joint_npmi_df calcMetrics [] pair).1 := by
  unfold prepare_joint_npmi_df
  have hinv : ∀ s d, (loadCachedSubgroups sc pair).lookup s = some d →
      d = calcMetrics s := by
    intro s d hd
    unfold loadCachedSubgroups at hd
    exact hfid s d (lookup_filterMap_cache sc [pair.1, pair.2] s d hd)
  have hinv0 : ∀ s d, (loadCachedSubgroups [] pair).lookup s = some d →
      d = calcMetrics s := by
    intro s d hd
    simp [loadCachedSubgroups, List.filterMap, List.lookup] at hd
  rw [do_npmi_fst_eq calcMetrics pair _ hinv,
      do_npmi_fst_eq calcMetrics pair _ hinv0]

/-- C4: with `use_cache` enabled, whatever the first call to
`load_or_prepare_joint_npmi` returned, an immediately following second call
for the same pair returns the identical table, leaves the cache state
untouched (nothing is recomputed or rewritten), and finds the persisted
joint artifact under the canonical pair key — i.e. it takes the load
branch.  (The source writes results unconditionally in the compute branch,
so the `save` flag of the claim plays no role here.) -/
theorem claim_C4_idempotent (calcMetrics : String → SubgroupData)
    (st : NpmiCacheState) (pair : String × String) (df1 : List UIRow)
    (st1 : NpmiCacheState)
    (h : load_or_prepare_joint_npmi calcMetrics true st pair
          = JointResult.table df1 st1) :
    load_or_prepare_joint_npmi calcMetrics true st1 pair
      = JointResult.table df1 st1
    ∧ st1.jointCache.lookup (jointKey pair) = some df1 := by
  unfold load_or_prepare_joint_npmi load_or_prepare_joint_npmi_sorted at h ⊢
  unfold jointKey
  by_cases hc : (st.jointCache.lookup
      ((sortPair pair).1 ++ "-" ++ (sortPair pair).2)).isSome = true
  · rw [if_pos (by simpa using hc)] at h
    injection h with h1 h2
    subst h1
    subst h2
    rcases Option.isSome_iff_exists.mp hc with ⟨x, hx⟩
    constructor
    · rw [if_pos (by simpa using hc)]
    · rw [hx]
      simp [hx]
  · rw [if_neg (by simpa using hc)] at h
    injection h with h1 h2
    subst h1
    subst h2
    constructor
    · rw [if_pos (by simp [List.lookup_cons_self])]
      simp [List.lookup_cons_self]
    · simp [List.lookup_cons_self]

/-- Witness for C3: subgroup `"man"`'s triple cached faithfully, `"woman"`
uncached, versus nothing cached. -/
theorem claim_C3_witness :
    (∀ s d, sc0.lookup s = some d → d = cm0 s)
    ∧ (prepare_joint_npmi_df cm0 sc0 (("man"), ("woman"))).1 =
        (prepare_joint_npmi_df cm0 [] (("man"), ("woman"))).1 := by
  have hf : ∀ s d, sc0.lookup s = some d → d = cm0 s := by
    intro s d hd
    unfold sc0 at hd
    rw [List.lookup_cons] at hd
    cases hsk : s == ("man") with
    | true =>
      simp only [hsk] at hd
      injection hd with hv
      have hs : s = ("man") := by simpa using hsk
      rw [← hv, hs]
      rfl
    | false =>
      simp only [hsk] at hd
      simp [List.lookup] at hd
  exact ⟨hf, claim_C3_cache_equivalence cm0 sc0 (("man"), ("woman")) hf⟩

section
attribute [local semireducible] Rat.sub Rat.add Rat.mul Rat.inv

/-- Counterexample for C1 as stated: `"man"` and `"woman"` are both
available in `availRows`, yet the tables `load_or_prepare_joint_npmi`
produces for `("man","woman")` and for `("woman","man")` are the same table
`T0`, whose bias at word `"w"` is `1/2` in both — not `1/2` in one and
`−1/2` in the other as the claimed negation would require. -/
theorem claim_C1_counterexample :
    ("man") ∈ freshAvailableTerms _IDENTITY_TERMS availRows MIN_VOCAB_COUNT
    ∧ ("woman") ∈ freshAvailableTerms _IDENTITY_TERMS availRows MIN_VOCAB_COUNT
    ∧ load_or_prepare_joint_npmi cm0 true st0 (("man"), ("woman"))
        = JointResult.table T0 S0
    ∧ load_or_prepare_joint_npmi cm0 true st0 (("woman"), ("man"))
        = JointResult.table T0 S0
    ∧ uiBias T0 ("w") = some (1/2)
    ∧ decide (uiBias T0 ("w") = some (-(1/2))) = false := by decide

/-- Counterexample for C2 as stated: with an empty vocabulary no identity
term is available (the spec's own degenerate scenario), yet requesting the
pair `("man","woman")` returns a joint table and raises nothing. -/
theorem claim_C2_counterexample :
    freshAvailableTerms _IDENTITY_TERMS [] MIN_VOCAB_COUNT = []
    ∧ (load_or_prepare_joint_npmi cm0 true st0 (("man"), ("woman"))).isTable
        = true := by decide

/-- Witness for C4: the first call on the empty cache computes and persists
`T0`; the second call returns the identical table by loading it. -/
theorem claim_C4_witness :
    load_or_prepare_joint_npmi cm0 true st0 (("man"), ("woman"))
      = JointResult.table T0 S0
    ∧ (load_or_prepare_joint_npmi cm0 true S0 (("man"), ("woman"))
        = JointResult.table T0 S0
       ∧ S0.jointCache.lookup (jointKey (("man"), ("woman"))) = some T0) :=
  ⟨by decide, claim_C4_idempotent cm0 st0 (("man"), ("woman")) T0 S0 (by decide)⟩

end
